import Mathlib

/-!
Verification development for the `SceneResolver` repository
(`SceneResolver/schemas.py`, `SceneResolver/resolver.py`,
`SceneResolver/state_store.py`).

The Python code is shallowly embedded:
* JSON-like Python values are the inductive `PyVal` (floats are not
  modelled; `datetime` values are modelled as an abstract integer
  timepoint `PyVal.dt`);
* Python `dict`s (ordered, unique keys) are association lists
  `Dict α := List (String × α)` with insertion-order-preserving
  operations `dinsert`, `dupdate`, `dsetdefault` mirroring
  `d[k] = v`, `d.update(o)` and `d.setdefault(k, v)`;
* randomness (`uuid4().hex`) is an explicit oracle `Nat → String`
  together with a running draw counter, threaded through the
  functions that consume it;
* persistence is explicit state passing: `ingest` takes the
  currently persisted `SceneState` (what `state_store.load_state`
  would return) and also returns the state that
  `state_store.save_state` writes back.
-/

namespace SceneResolver

/-- JSON-like Python runtime values as they occur in the resolver.
`dt` stands for an `isinstance(value, datetime)` value, modelled as an
abstract integer timepoint. Floats are not modelled. -/
inductive PyVal where
  | none
  | bool (b : Bool)
  | int (n : Int)
  | str (s : String)
  | dt (t : Int)
  | list (xs : List PyVal)
  | dict (fields : List (String × PyVal))
deriving Repr

mutual

/-- Python `==` on the modelled values (restricted to the shapes the
resolver compares: bool/int cross-equality and key-order-insensitive
dict equality are not modelled, and no theorem below depends on them). -/
def pyBeq : PyVal → PyVal → Bool
  | .none, .none => true
  | .bool a, .bool b => a == b
  | .int a, .int b => a == b
  | .str a, .str b => a == b
  | .dt a, .dt b => a == b
  | .list xs, .list ys => pyListBeq xs ys
  | .dict xs, .dict ys => pyFieldsBeq xs ys
  | _, _ => false

/-- Elementwise Python `==` on lists. -/
def pyListBeq : List PyVal → List PyVal → Bool
  | [], [] => true
  | x :: xs, y :: ys => pyBeq x y && pyListBeq xs ys
  | _, _ => false

/-- Pairwise equality of dict entry lists. -/
def pyFieldsBeq : List (String × PyVal) → List (String × PyVal) → Bool
  | [], [] => true
  | (k, v) :: xs, (k', v') :: ys => k == k' && pyBeq v v' && pyFieldsBeq xs ys
  | _, _ => false

end

/-- A Python `dict` with `String` keys: an association list with (by
construction) unique keys, preserving insertion order. -/
abbrev Dict (α : Type) := List (String × α)

/-- First-match lookup, i.e. `d[k]` / `d.get(k)` on a dict with unique keys. -/
def dlookup {α} (d : Dict α) (k : String) : Option α :=
  match d with
  | [] => Option.none
  | (k', v) :: rest => if k' = k then some v else dlookup rest k

/-- `d.get(k, default)`. -/
def dget {α} (d : Dict α) (k : String) (default : α) : α :=
  (dlookup d k).getD default

/-- `d[k] = v`: overwrite in place if the key exists, else append. -/
def dinsert {α} (d : Dict α) (k : String) (v : α) : Dict α :=
  match d with
  | [] => [(k, v)]
  | (k', v') :: rest => if k' = k then (k, v) :: rest else (k', v') :: dinsert rest k v

/-- `d.update(other)`: apply `d[k] = v` for every pair of `other` in order. -/
def dupdate {α} (d other : Dict α) : Dict α :=
  other.foldl (fun acc kv => dinsert acc kv.1 kv.2) d

/-- `d.setdefault(k, v)`: append `(k, v)` only when `k` is absent. -/
def dsetdefault {α} (d : Dict α) (k : String) (v : α) : Dict α :=
  if (dlookup d k).isSome then d else d ++ [(k, v)]

/-- `del d[k]` (as performed by `d.pop(k)`): remove the key. -/
def dremove {α} (d : Dict α) (k : String) : Dict α :=
  match d with
  | [] => []
  | (k', v') :: rest => if k' = k then rest else (k', v') :: dremove rest k

/-- Python truthiness of a `PyVal`. -/
def pyTruthy : PyVal → Bool
  | .none => false
  | .bool b => b
  | .int n => n ≠ 0
  | .str s => s ≠ ""
  | .dt _ => true
  | .list xs => ¬xs.isEmpty
  | .dict fields => ¬fields.isEmpty

/-- Python `x or y` on values. -/
def pyOr (x y : PyVal) : PyVal := if pyTruthy x then x else y

/-- Truthiness of an optional string (`None` and `""` are falsy). -/
def optStrTruthy : Option String → Bool
  | Option.none => false
  | some s => s ≠ ""

/-- Python `x or y` on optional strings. -/
def optStrOr (x y : Option String) : Option String :=
  if optStrTruthy x then x else y

/-! Structural reimplementations of the `String` operations the resolver
uses (`lower`, `startswith`, slicing, `strip`, `split`, `join`),
recursing on the character list so that concrete evaluations reduce
definitionally (the library versions recurse on byte positions, which
blocks kernel reduction). -/

/-- `s.lower()` (ASCII). -/
def strLower (s : String) : String := ⟨s.data.map Char.toLower⟩

/-- `s.startswith(p)`. -/
def strStartsWith (s p : String) : Bool := p.data.isPrefixOf s.data

/-- `s[:n]`. -/
def strTake (s : String) (n : Nat) : String := ⟨s.data.take n⟩

/-- `s.strip()`. -/
def strTrim (s : String) : String :=
  ⟨((s.data.dropWhile Char.isWhitespace).reverse.dropWhile Char.isWhitespace).reverse⟩

/-- `s.split()`: maximal runs of non-whitespace characters. -/
def strWordsAux : List Char → List Char → List String
  | [], acc => if acc.isEmpty then [] else [⟨acc.reverse⟩]
  | c :: cs, acc =>
    if c.isWhitespace then
      if acc.isEmpty then strWordsAux cs [] else ⟨acc.reverse⟩ :: strWordsAux cs []
    else strWordsAux cs (c :: acc)

/-- `s.split()` on a string. -/
def strWords (s : String) : List String := strWordsAux s.data []

/-- `"_".join(parts)`. -/
def strJoinUnderscore : List String → String
  | [] => ""
  | [s] => s
  | s :: rest => s ++ "_" ++ strJoinUnderscore rest

/-- Interpret a value as a dict (`{}` for anything that is not a dict;
a truthy non-dict here would be a `TypeError` in the Python source, a
path never exercised by the theorems below). -/
def asDict : PyVal → Dict PyVal
  | .dict fields => fields
  | _ => []

/-- Python `str(value)` restricted to the shapes the resolver feeds it. -/
def pyStr : PyVal → String
  | .none => "None"
  | .bool b => if b then "True" else "False"
  | .int n => toString n
  | .str s => s
  | .dt t => toString t
  | .list _ => "[...]"
  | .dict _ => "{...}"

/-- pydantic v1 coercion into an `Optional[str]` field, collapsed to a
total function (`str` passes through, numbers/bools are stringified as
Python would render them; other shapes — which pydantic rejects — give
`None`, a path never exercised by the theorems below). -/
def coerceOptStr : PyVal → Option String
  | .none => Option.none
  | .str s => some s
  | .int n => some (toString n)
  | .bool b => some (if b then "True" else "False")
  | _ => Option.none

/-- An optional string rendered back as a Python value. -/
def optStrToPy : Option String → PyVal
  | Option.none => PyVal.none
  | some s => .str s

/-- `data.get(k)` (default `None`). -/
def pyGet (d : Dict PyVal) (k : String) : PyVal := dget d k .none

/-! ### `schemas.py`: payload normalisation and parsing -/

/-- The `metadata`-relocation loop shared verbatim (modulo the `known`
set) by `GeminiEntity._normalise_fields`, `GeminiEvent._normalise_event`
and `GeminiPayload._normalise_payload`:

    for key in list(data.keys()):
        if key in known:
            continue
        metadata.setdefault(key, data.pop(key))

The keys iterated are a snapshot of `data`'s keys taken before any `pop`. -/
def relocateStep (known : List String) (st : Dict PyVal × Dict PyVal)
    (k : String) : Dict PyVal × Dict PyVal :=
  if k ∈ known then st
  else
    match dlookup st.1 k with
    | some v => (dremove st.1 k, dsetdefault st.2 k v)
    | Option.none => st

/-- The relocation loop: fold `relocateStep` over the key snapshot. -/
def relocateKeys (known : List String) (data metadata : Dict PyVal) :
    Dict PyVal × Dict PyVal :=
  (data.map Prod.fst).foldl (relocateStep known) (data, metadata)

/-- Recognised keys of `GeminiEntity._normalise_fields`. -/
def entityKnownKeys : List String :=
  ["id", "name", "type", "appearance", "attributes", "metadata"]

/-- Recognised keys of `GeminiEvent._normalise_event`. -/
def eventKnownKeys : List String :=
  ["event_id", "id", "timestamp", "time", "event_time", "action", "verb",
   "summary", "description", "actors", "targets", "participants", "subjects",
   "entities", "metadata"]

/-- Recognised keys of `GeminiPayload._normalise_payload`. -/
def payloadKnownKeys : List String :=
  ["events", "timeline", "entries", "metadata"]

/-- `GeminiEntity._normalise_fields` (the dict-to-dict transformation the
pre-validator performs). -/
def normaliseEntityFields (values : Dict PyVal) : Dict PyVal :=
  let data := values
  let data := dsetdefault data "appearance" (dget data "looks" (.dict []))
  let data := dsetdefault data "attributes" (dget data "state" (.dict []))
  let metadata := asDict (pyOr (pyGet data "metadata") (.dict []))
  let dm := relocateKeys entityKnownKeys data metadata
  dinsert dm.1 "metadata" (.dict dm.2)

/-- `data.get("timestamp") or data.get("time") or data.get("event_time")`. -/
def eventTimestampAlias (data : Dict PyVal) : PyVal :=
  pyOr (pyGet data "timestamp") (pyOr (pyGet data "time") (pyGet data "event_time"))

/-- Is this value a Python dict? -/
def isDictVal : PyVal → Bool
  | .dict _ => true
  | _ => false

/-- `entry.get("role") in {...roles...}` for an `entities` entry. -/
def roleIn (entry : PyVal) (roles : List String) : Bool :=
  roles.any fun r => pyBeq (pyGet (asDict entry) "role") (.str r)

/-- `GeminiEvent._normalise_event`, steps before the metadata
relocation: id/timestamp/action/summary aliasing and the
actor/target scavenging from `participants`/`subjects`/`entities`. -/
def preEventData (values : Dict PyVal) : Dict PyVal :=
  let data := values
  let data := dinsert data "event_id" (pyOr (pyGet data "event_id") (pyGet data "id"))
  let data := dinsert data "timestamp" (eventTimestampAlias data)
  let data := dsetdefault data "action" (pyGet data "verb")
  let data := dsetdefault data "summary" (pyGet data "description")
  let data :=
    if pyTruthy (pyGet data "actors") then data
    else
      match pyOr (pyGet data "participants") (pyGet data "subjects") with
      | .list xs => dinsert data "actors" (.list xs)
      | _ => data
  let data :=
    if pyTruthy (pyGet data "targets") then data
    else
      match pyOr (pyGet data "entities") (.list []) with
      | .list entities =>
        let targetLike := entities.filter fun e =>
          isDictVal e && roleIn e ["object", "target"]
        let actorLike := entities.filter fun e =>
          isDictVal e && roleIn e ["actor", "subject", "person"]
        let data :=
          if ¬actorLike.isEmpty ∧ ¬pyTruthy (pyGet data "actors") then
            dinsert data "actors" (.list actorLike)
          else data
        let data :=
          if ¬targetLike.isEmpty ∧ ¬pyTruthy (pyGet data "targets") then
            dinsert data "targets" (.list targetLike)
          else data
        data
      | _ => data
  data

/-- `GeminiEvent._normalise_event`. -/
def normaliseEventFields (values : Dict PyVal) : Dict PyVal :=
  let data := preEventData values
  let metadata := asDict (pyOr (pyGet data "metadata") (.dict []))
  let dm := relocateKeys eventKnownKeys data metadata
  dinsert dm.1 "metadata" (.dict dm.2)

/-- `GeminiPayload._normalise_payload`. -/
def normalisePayloadFields (values : Dict PyVal) : Dict PyVal :=
  let data := values
  let data := dsetdefault data "events"
    (pyOr (pyGet data "timeline") (pyOr (pyGet data "entries") (.list [])))
  let metadata := asDict (pyOr (pyGet data "metadata") (.dict []))
  let dm := relocateKeys payloadKnownKeys data metadata
  dinsert dm.1 "metadata" (.dict dm.2)

/-! Timestamps. `datetime` is modelled as an abstract integer timepoint.
`datetime.fromisoformat` is modelled by `parseIsoTimestamp`, an
order-preserving simplification (restricted ISO shape, months of 31
days, no leap handling): no theorem below depends on the value of a
string-parsed timestamp, only on whether parsing succeeds. -/

/-- A run of digits as a number, `none` on anything else. -/
def digitsToNat (s : String) : Option Nat :=
  if s.length > 0 ∧ s.toList.all Char.isDigit then s.toNat? else Option.none

/-- Model of the date part `YYYY-MM-DD`. -/
def parseIsoDate (s : String) : Option (Nat × Nat × Nat) :=
  match s.splitOn "-" with
  | [y, mo, d] =>
    match digitsToNat y, digitsToNat mo, digitsToNat d with
    | some yn, some mn, some dn =>
      if y.length = 4 ∧ mo.length = 2 ∧ d.length = 2 ∧
          1 ≤ mn ∧ mn ≤ 12 ∧ 1 ≤ dn ∧ dn ≤ 31 then
        some (yn, mn, dn)
      else Option.none
    | _, _, _ => Option.none
  | _ => Option.none

/-- Model of the clock part `HH:MM:SS`, as seconds into the day. -/
def parseIsoClock (s : String) : Option Int :=
  match s.splitOn ":" with
  | [h, mi, sec] =>
    match digitsToNat h, digitsToNat mi, digitsToNat sec with
    | some hn, some mn, some sn =>
      if h.length = 2 ∧ mi.length = 2 ∧ sec.length = 2 ∧
          hn < 24 ∧ mn < 60 ∧ sn < 60 then
        some ((hn * 3600 + mn * 60 + sn : Nat) : Int)
      else Option.none
    | _, _, _ => Option.none
  | _ => Option.none

/-- Model of the time-of-day part with an optional `±HH:MM` offset. -/
def parseIsoTime (s : String) : Option Int :=
  if s.length > 6 ∧
      ((s.drop (s.length - 6)).startsWith "+" ∨ (s.drop (s.length - 6)).startsWith "-") then
    let off := s.drop (s.length - 6)
    match parseIsoClock (s.take (s.length - 6)), parseIsoClock (off.drop 1 ++ ":00") with
    | some secs, some offSecs =>
      some (if off.startsWith "-" then secs + offSecs else secs - offSecs)
    | _, _ => Option.none
  else parseIsoClock s

/-- Model of `datetime.fromisoformat`, mapping an accepted string to an
order-preserving integer timepoint. -/
def parseIsoTimestamp (s : String) : Option Int :=
  let parts :=
    if (s.splitOn "T").length = 2 then some (s.splitOn "T")
    else if (s.splitOn " ").length = 2 then some (s.splitOn " ")
    else Option.none
  match parts with
  | some [ds, ts] =>
    match parseIsoDate ds, parseIsoTime ts with
    | some (y, mo, d), some secs =>
      some ((((y * 372 + (mo - 1) * 31 + (d - 1) : Nat) : Int)) * 86400 + secs)
    | _, _ => Option.none
  | _ =>
    match parseIsoDate s with
    | some (y, mo, d) => some (((y * 372 + (mo - 1) * 31 + (d - 1) : Nat) : Int) * 86400)
    | Option.none => Option.none

/-- `GeminiEvent._coerce_timestamp`: a `datetime` passes through, a
number is epoch (`datetime.fromtimestamp`; Python `bool` is an `int`),
a string is ISO-parsed after substituting `+00:00` for `Z`; every other
shape is a validation error. -/
def coerceTimestamp : PyVal → Except String Int
  | .dt t => .ok t
  | .int n => .ok n
  | .bool b => .ok (if b then 1 else 0)
  | .str s =>
    match parseIsoTimestamp (s.replace "Z" "+00:00") with
    | some t => .ok t
    | Option.none => .error "Unsupported timestamp format"
  | _ => .error "Unsupported timestamp format"

/-- `GeminiEntity` after validation. -/
structure GeminiEntity where
  entity_id : Option String
  name : Option String
  type : Option String
  appearance : Dict PyVal
  attributes : Dict PyVal
  metadata : Dict PyVal
deriving Repr

/-- pydantic field population for a field with an alias (the alias key is
consulted first; `allow_population_by_field_name` admits the field name). -/
def aliasField (data : Dict PyVal) (aliasKey fieldName : String) : PyVal :=
  match dlookup data aliasKey with
  | some v => v
  | Option.none => pyGet data fieldName

/-- pydantic validation of an `Optional[str]` field value. -/
def parseOptStrField (v : PyVal) : Except String (Option String) :=
  match v with
  | .none => .ok Option.none
  | .str s => .ok (some s)
  | .int n => .ok (some (toString n))
  | .bool b => .ok (some (if b then "True" else "False"))
  | _ => .error "str type expected"

/-- pydantic validation of a `Dict[str, Any]` field with `default_factory=dict`. -/
def parseDictField (data : Dict PyVal) (k : String) : Except String (Dict PyVal) :=
  match dlookup data k with
  | Option.none => .ok []
  | some (.dict fields) => .ok fields
  | some _ => .error "value is not a valid dict"

/-- `GeminiEntity.parse_obj`: the pre-validator followed by field
validation. -/
def parseGeminiEntity : PyVal → Except String GeminiEntity
  | .dict values => do
    let data := normaliseEntityFields values
    let eid ← parseOptStrField (aliasField data "id" "entity_id")
    let nm ← parseOptStrField (pyGet data "name")
    let ty ← parseOptStrField (pyGet data "type")
    let app ← parseDictField data "appearance"
    let attrs ← parseDictField data "attributes"
    let md ← parseDictField data "metadata"
    return ⟨eid, nm, ty, app, attrs, md⟩
  | _ => .error "value is not a valid dict"

/-- `GeminiEvent` after validation. -/
structure GeminiEvent where
  event_id : Option String
  timestamp : Int
  action : Option String
  summary : Option String
  actors : List GeminiEntity
  targets : List GeminiEntity
  metadata : Dict PyVal
deriving Repr

/-- pydantic validation of a `List[GeminiEntity]` field with
`default_factory=list`. -/
def parseEntityList (data : Dict PyVal) (k : String) :
    Except String (List GeminiEntity) :=
  match dlookup data k with
  | Option.none => .ok []
  | some (.list xs) => xs.mapM parseGeminiEntity
  | some _ => .error "value is not a valid list"

/-- `GeminiEvent.parse_obj`: the pre-validator, the timestamp coercion
validator, and field validation. -/
def parseGeminiEvent : PyVal → Except String GeminiEvent
  | .dict values => do
    let data := normaliseEventFields values
    let eid ← parseOptStrField (aliasField data "id" "event_id")
    let ts ← coerceTimestamp (pyGet data "timestamp")
    let act ← parseOptStrField (pyGet data "action")
    let summ ← parseOptStrField (pyGet data "summary")
    let actors ← parseEntityList data "actors"
    let targets ← parseEntityList data "targets"
    let md ← parseDictField data "metadata"
    return ⟨eid, ts, act, summ, actors, targets, md⟩
  | _ => .error "value is not a valid dict"

/-- `GeminiPayload` after validation. -/
structure GeminiPayload where
  events : List GeminiEvent
  metadata : Dict PyVal
deriving Repr

/-- `GeminiPayload.parse_obj`. -/
def parseGeminiPayload : PyVal → Except String GeminiPayload
  | .dict values => do
    let data := normalisePayloadFields values
    let evs ←
      match dlookup data "events" with
      | Option.none => pure []
      | some (.list xs) => xs.mapM parseGeminiEvent
      | some _ => Except.error "value is not a valid list"
    let md ← parseDictField data "metadata"
    return ⟨evs, md⟩
  | _ => .error "value is not a valid dict"

/-! ### Resolved scene state (`schemas.py`, persisted models) -/

/-- `EventActor`: participant in a resolved event. -/
structure EventActor where
  entity_id : String
  name : Option String
  type : String
  appearance : Dict PyVal
  attributes : Dict PyVal
deriving Repr

/-- `Event`: normalised event stored in the scene timeline. -/
structure Event where
  id : String
  timestamp : Int
  action : String
  summary : Option String
  actor : Option EventActor
  target : Option EventActor
  metadata : Dict PyVal
deriving Repr

/-- `EntityState`: current understanding of an entity within the scene. -/
structure EntityState where
  entity_id : String
  name : Option String
  type : String
  appearance : Dict PyVal
  attributes : Dict PyVal
  last_event_id : Option String
  last_updated : Int
deriving Repr

/-- `SceneState`: persisted state of the scene. -/
structure SceneState where
  timeline : List Event
  world_state : Dict EntityState
deriving Repr

/-- `SceneState()`: the empty scene state. -/
def SceneState.empty : SceneState := ⟨[], []⟩

/-! ### `resolver.py`: identity resolution -/

/-- The process-lifetime identity-profile store (`IDENTITY_PROFILES`),
passed explicitly: three categories, each mapping a profile id to a raw
profile dict. -/
structure Profiles where
  person : Dict (Dict PyVal)
  object : Dict (Dict PyVal)
  unknown : Dict (Dict PyVal)
deriving Repr

/-- Lines 83–98 of `resolver.py`: lower-case the declared type
(defaulting the falsy case to `"unknown"`), pick the first of the three
categories whose name's first three characters the type starts with;
when none matches (the `for`/`else` branch) the canonical type is the
raw type string and the `unknown` bucket is used. Returns
`(canonical_type, preferred_bucket)`. -/
def canonicalBucket (P : Profiles) (declaredType : Option String) :
    String × Dict (Dict PyVal) :=
  let entityType := strLower ((optStrOr declaredType (some "unknown")).getD "unknown")
  let cands := [("person", P.person), ("object", P.object), ("unknown", P.unknown)]
  match cands.find? (fun c => strStartsWith entityType (strTake c.1 3)) with
  | some c => (c.1, c.2)
  | Option.none => (if entityType = "" then "unknown" else entityType, P.unknown)

/-- `profile.get("name", "").lower()` (a non-string stored name would be
an `AttributeError` in Python; it is collapsed to `""`, which can never
equal the non-empty lookup string, and no theorem depends on it). -/
def pyLowerStrD : PyVal → String
  | .str s => strLower s
  | _ => ""

/-- One appearance key's contribution to the similarity score
(`score_profile`, lines 126–134), given the observed and stored values. -/
def scoreAppearanceValue (observed profileValue : PyVal) : Nat :=
  match observed, profileValue with
  | .list vs, .list ps =>
    (((vs.map pyStr).dedup).filter fun s => s ∈ ps.map pyStr).length
  | .list vs, pv => if pyStr pv ∈ vs.map pyStr then 1 else 0
  | v, .list ps => if pyStr v ∈ ps.map pyStr then 1 else 0
  | v, pv => if strLower (pyStr v) = strLower (pyStr pv) then 1 else 0

/-- `score_profile` (lines 119–139): appearance keys score via
`scoreAppearanceValue` (a key whose stored value is `None`/absent
contributes 0), attribute keys score 1 on exact equality. -/
def scoreProfile (appearance attributes : Dict PyVal) (profile : Dict PyVal) : Nat :=
  let profileAppearance := asDict (pyOr (pyGet profile "appearance") (.dict []))
  let appScore := (appearance.map fun kv =>
    match pyGet profileAppearance kv.1 with
    | .none => 0
    | pv => scoreAppearanceValue kv.2 pv).sum
  let profileAttributes := asDict (pyOr (pyGet profile "attributes") (.dict []))
  let attrScore := (attributes.map fun kv =>
    match dlookup profileAttributes kv.1 with
    | some v => if pyBeq v kv.2 then 1 else 0
    | Option.none => 0).sum
  appScore + attrScore

/-- The attribute-similarity scan (lines 141–146): fold over the
concatenated buckets, keeping `(best_score, best_match)` and replacing
the candidate only on `score > best_score and score > 0`. -/
def attributeScan (appearance attributes : Dict PyVal)
    (profiles : List (String × Dict PyVal)) : Option (String × Dict PyVal) :=
  (profiles.foldl
    (fun acc pp =>
      let score := scoreProfile appearance attributes pp.2
      if score > acc.1 ∧ score > 0 then (score, some pp) else acc)
    ((0 : Nat), (Option.none : Option (String × Dict PyVal)))).2

/-- `resolve_identity`, with the profile store, the randomness oracle
and the running draw counter passed explicitly; returns the
`(entity_id, profile)` pair and the new counter. -/
def resolveIdentityC (P : Profiles) (oracle : Nat → String) (ctr : Nat)
    (entity : GeminiEntity) : (String × Dict PyVal) × Nat :=
  let cb := canonicalBucket P entity.type
  let canonicalType := cb.1
  let preferredBucket := cb.2
  let byId : Option (String × Dict PyVal) :=
    match entity.entity_id with
    | some eid =>
      if eid ≠ "" then
        match dlookup preferredBucket eid with
        | some prof => some (eid, dsetdefault prof "type" (.str canonicalType))
        | Option.none => Option.none
      else Option.none
    | Option.none => Option.none
  match byId with
  | some r => (r, ctr)
  | Option.none =>
    let scanList := preferredBucket ++ P.person ++ P.object
    let byName : Option (String × Dict PyVal) :=
      if optStrTruthy entity.name then
        let lookupName := strLower (entity.name.getD "")
        match scanList.find?
            (fun pp => pyLowerStrD (dget pp.2 "name" (.str "")) = lookupName) with
        | some pp => some (pp.1, dsetdefault pp.2 "type" (.str canonicalType))
        | Option.none => Option.none
      else Option.none
    match byName with
    | some r => (r, ctr)
    | Option.none =>
      match attributeScan entity.appearance entity.attributes scanList with
      | some pp => ((pp.1, dsetdefault pp.2 "type" (.str canonicalType)), ctr)
      | Option.none =>
        let gid :=
          if optStrTruthy entity.entity_id then (entity.entity_id.getD "", ctr)
          else
            let base0 := (optStrOr entity.name (optStrOr entity.type
              (optStrOr (some canonicalType) (some "entity")))).getD "entity"
            let base := if strTrim base0 = "" then "entity" else strTrim base0
            let slug := strJoinUnderscore (strWords (strLower base))
            (slug ++ "_" ++ strTake (oracle ctr) 8, ctr + 1)
        let typeStr := (optStrOr (some canonicalType)
          (optStrOr entity.type (some "unknown"))).getD "unknown"
        let profile : Dict PyVal :=
          [("id", .str gid.1),
           ("name", optStrToPy entity.name),
           ("type", .str typeStr),
           ("appearance", .dict entity.appearance),
           ("attributes", .dict entity.attributes)]
        ((gid.1, profile), gid.2)

/-- `_build_event_actor`: resolve the entity, then overlay the matched
profile's appearance/attributes with the freshly observed ones
(observation wins per key). -/
def buildEventActorC (P : Profiles) (oracle : Nat → String) (ctr : Nat)
    (entity : GeminiEntity) : EventActor × Nat :=
  let r := resolveIdentityC P oracle ctr entity
  let profile := r.1.2
  let appearance := dupdate (dupdate [] (asDict (pyOr (pyGet profile "appearance") (.dict []))))
    entity.appearance
  let attributes := dupdate (dupdate [] (asDict (pyOr (pyGet profile "attributes") (.dict []))))
    entity.attributes
  ({ entity_id := r.1.1
     name := coerceOptStr (pyOr (pyGet profile "name") (optStrToPy entity.name))
     type := (coerceOptStr (pyOr (pyGet profile "type")
       (pyOr (optStrToPy entity.type) (.str "unknown")))).getD "unknown"
     appearance := appearance
     attributes := attributes }, r.2)

/-! ### `resolver.py`: scene merging -/

/-- The body of `_update_world_state`'s loop for one participant:
insert a fresh `EntityState` for an unknown id; otherwise overwrite
name/type only when truthy, merge appearance/attributes key-by-key, and
always advance `last_event_id`/`last_updated`. -/
def applyParticipant (ws : Dict EntityState) (eventId : String) (ts : Int)
    (p : EventActor) : Dict EntityState :=
  match dlookup ws p.entity_id with
  | Option.none =>
    dinsert ws p.entity_id
      ⟨p.entity_id, p.name, p.type, p.appearance, p.attributes, some eventId, ts⟩
  | some existing =>
    let existing := if optStrTruthy p.name then { existing with name := p.name } else existing
    let existing := if p.type ≠ "" then { existing with type := p.type } else existing
    let existing :=
      if ¬p.appearance.isEmpty then
        { existing with appearance := dupdate existing.appearance p.appearance }
      else existing
    let existing :=
      if ¬p.attributes.isEmpty then
        { existing with attributes := dupdate existing.attributes p.attributes }
      else existing
    dinsert ws p.entity_id
      { existing with last_event_id := some eventId, last_updated := ts }

/-- `_update_world_state`: apply the actor (if any) then the target
(if any) — `filter(None, (event.actor, event.target))`. -/
def updateWorldState (state : SceneState) (event : Event) : SceneState :=
  let ws :=
    match event.actor with
    | some a => applyParticipant state.world_state event.id event.timestamp a
    | Option.none => state.world_state
  let ws :=
    match event.target with
    | some t => applyParticipant ws event.id event.timestamp t
    | Option.none => ws
  { state with world_state := ws }

/-- The `while event_id in existing_ids` suffixing loop of `ingest`
(lines 226–227), with an explicit iteration bound: while the id
collides, append `-` plus four hex chars of a fresh random draw. Each
iteration strictly lengthens the id, so once the id is longer than
every stored id the loop must exit; the bound `maxIdLength + 1` fed in
by `freshEventId` therefore never binds, and the bounded recursion
computes exactly what the unbounded Python loop does. -/
def freshEventIdAux (existing : List String) (oracle : Nat → String) :
    Nat → String → Nat → String × Nat
  | 0, eid, ctr => (eid, ctr)
  | fuel + 1, eid, ctr =>
    if eid ∈ existing then
      freshEventIdAux existing oracle fuel (eid ++ "-" ++ strTake (oracle ctr) 4) (ctr + 1)
    else (eid, ctr)

/-- Length of the longest id in the running set. -/
def maxIdLength (existing : List String) : Nat :=
  existing.foldr (fun s acc => max s.length acc) 0

/-- The id-suffixing loop. -/
def freshEventId (existing : List String) (oracle : Nat → String)
    (eid : String) (ctr : Nat) : String × Nat :=
  freshEventIdAux existing oracle (maxIdLength existing + 1) eid ctr

/-- Timestamp order on stored events (`key=lambda entry: entry.timestamp`). -/
def tsLE (a b : Event) : Prop := a.timestamp ≤ b.timestamp

instance : DecidableRel tsLE := fun a b => inferInstanceAs (Decidable (a.timestamp ≤ b.timestamp))

instance : IsTotal Event tsLE := ⟨fun a b => Int.le_total a.timestamp b.timestamp⟩

instance : IsTrans Event tsLE := ⟨fun _ _ _ h1 h2 => le_trans h1 h2⟩

/-- Timestamp order on raw payload events. -/
def gevTsLE (a b : GeminiEvent) : Prop := a.timestamp ≤ b.timestamp

instance : DecidableRel gevTsLE := fun a b => inferInstanceAs (Decidable (a.timestamp ≤ b.timestamp))

instance : IsTotal GeminiEvent gevTsLE := ⟨fun a b => Int.le_total a.timestamp b.timestamp⟩

instance : IsTrans GeminiEvent gevTsLE := ⟨fun _ _ _ h1 h2 => le_trans h1 h2⟩

/-- The per-event body of `ingest`'s loop (lines 224–250), iterated over
the timestamp-sorted batch with its enumeration index, threading the
scene state, the running id set and the randomness counter.
Python's `str.__format__`/`isoformat` rendering of the synthesized id's
timestamp component is modelled as the decimal rendering of the abstract
timepoint. -/
def builtEvent (P : Profiles) (oracle : Nat → String) (payloadMeta : Dict PyVal)
    (raw : GeminiEvent) (index : Nat) (existing : List String) (ctr : Nat) :
    Event × Nat :=
  let base :=
    if optStrTruthy raw.event_id then raw.event_id.getD ""
    else "event-" ++ toString raw.timestamp ++ "-" ++ toString index
  let fr := freshEventId existing oracle base ctr
  let metadata := dupdate (dupdate [] payloadMeta) raw.metadata
  let action := (coerceOptStr (pyOr (optStrToPy raw.action)
    (pyOr (pyGet raw.metadata "action") (.str "observation")))).getD "observation"
  let ar :=
    match raw.actors with
    | [] => ((Option.none : Option EventActor), fr.2)
    | a :: _ =>
      let r := buildEventActorC P oracle fr.2 a
      (some r.1, r.2)
  let tr :=
    match raw.targets with
    | [] => ((Option.none : Option EventActor), ar.2)
    | t :: _ =>
      let r := buildEventActorC P oracle ar.2 t
      (some r.1, r.2)
  (⟨fr.1, raw.timestamp, action, raw.summary, ar.1, tr.1, metadata⟩, tr.2)

/-- One iteration of `ingest`'s loop: build the event (with its fresh
id), record the id, append to the timeline, update the world state. -/
def ingestStep (P : Profiles) (oracle : Nat → String) (payloadMeta : Dict PyVal)
    (raw : GeminiEvent) (index : Nat) (state : SceneState)
    (existing : List String) (ctr : Nat) : SceneState × List String × Nat :=
  let ev := builtEvent P oracle payloadMeta raw index existing ctr
  let state := { state with timeline := state.timeline ++ [ev.1] }
  let state := updateWorldState state ev.1
  (state, existing ++ [ev.1.id], ev.2)

/-- The loop of `ingest` over the sorted batch. -/
def ingestLoop (P : Profiles) (oracle : Nat → String) (payloadMeta : Dict PyVal) :
    List GeminiEvent → Nat → SceneState → List String → Nat →
      SceneState × List String × Nat
  | [], _, state, existing, ctr => (state, existing, ctr)
  | raw :: rest, index, state, existing, ctr =>
    let st := ingestStep P oracle payloadMeta raw index state existing ctr
    ingestLoop P oracle payloadMeta rest (index + 1) st.1 st.2.1 st.2.2

/-- `ingest`: parse the payload (a validation failure aborts before any
state is read or written), load the persisted state, process the events
in timestamp order, re-sort the full timeline, persist.  Persistence is
explicit: the second component is the state the store holds after the
call (unchanged on failure).  `sorted`/`list.sort` (stable) are modelled
by the stable `List.insertionSort`. -/
def ingest (P : Profiles) (oracle : Nat → String) (gjson : PyVal)
    (persisted : SceneState) : Except String SceneState × SceneState :=
  match parseGeminiPayload gjson with
  | .error e => (.error ("Invalid Gemini payload: " ++ e), persisted)
  | .ok payload =>
    let state := persisted
    let existing := state.timeline.map (·.id)
    let ordered := List.insertionSort gevTsLE payload.events
    let res := ingestLoop P oracle payload.metadata ordered 0 state existing 0
    let state := { res.1 with timeline := List.insertionSort tsLE res.1.timeline }
    (.ok state, state)

/-! ### `state_store.py` -/

/-- What `load_state` can find at the state path: no file, an unreadable
file (`OSError`), a file that is not valid JSON (`json.JSONDecodeError`),
or a decoded JSON document. -/
inductive StoredFile where
  | missing
  | unreadable
  | invalidJson
  | content (v : PyVal)

/-- pydantic validation of a required `str` field value. -/
def parseReqStrField (v : PyVal) : Except String String :=
  match parseOptStrField v with
  | .ok (some s) => .ok s
  | .ok Option.none => .error "none is not an allowed value"
  | .error e => .error e

/-- pydantic validation of a `datetime` field value (epoch numbers, ISO
strings, or an already-structured time value). -/
def parseStoredTimestamp (v : PyVal) : Except String Int :=
  match v with
  | .dt t => .ok t
  | .int n => .ok n
  | .bool b => .ok (if b then 1 else 0)
  | .str s =>
    match parseIsoTimestamp s with
    | some t => .ok t
    | Option.none => .error "invalid datetime format"
  | _ => .error "invalid datetime format"

/-- `EventActor.parse_obj` for the persisted state. -/
def parseStoredActor : PyVal → Except String EventActor
  | .dict d => do
    let eid ← parseReqStrField (pyGet d "entity_id")
    let nm ← parseOptStrField (pyGet d "name")
    let ty ←
      match dlookup d "type" with
      | Option.none => pure "unknown"
      | some v => parseReqStrField v
    let app ← parseDictField d "appearance"
    let attrs ← parseDictField d "attributes"
    return ⟨eid, nm, ty, app, attrs⟩
  | _ => .error "value is not a valid dict"

/-- pydantic validation of an `Optional[EventActor]` field. -/
def parseOptActorField (d : Dict PyVal) (k : String) :
    Except String (Option EventActor) :=
  match dlookup d k with
  | Option.none => .ok Option.none
  | some .none => .ok Option.none
  | some v => (parseStoredActor v).map some

/-- `Event.parse_obj` for the persisted state. -/
def parseStoredEvent : PyVal → Except String Event
  | .dict d => do
    let id ← parseReqStrField (pyGet d "id")
    let ts ← parseStoredTimestamp (pyGet d "timestamp")
    let act ← parseReqStrField (pyGet d "action")
    let summ ← parseOptStrField (pyGet d "summary")
    let actor ← parseOptActorField d "actor"
    let target ← parseOptActorField d "target"
    let md ← parseDictField d "metadata"
    return ⟨id, ts, act, summ, actor, target, md⟩
  | _ => .error "value is not a valid dict"

/-- `EntityState.parse_obj` for the persisted state
(`default_factory=datetime.utcnow` for `last_updated` is modelled as a
fixed timepoint `0`; no theorem depends on it). -/
def parseStoredEntityState : PyVal → Except String EntityState
  | .dict d => do
    let eid ← parseReqStrField (pyGet d "entity_id")
    let nm ← parseOptStrField (pyGet d "name")
    let ty ←
      match dlookup d "type" with
      | Option.none => pure "unknown"
      | some v => parseReqStrField v
    let app ← parseDictField d "appearance"
    let attrs ← parseDictField d "attributes"
    let lastId ← parseOptStrField (pyGet d "last_event_id")
    let lastUpd ←
      match dlookup d "last_updated" with
      | Option.none => pure (0 : Int)
      | some v => parseStoredTimestamp v
    return ⟨eid, nm, ty, app, attrs, lastId, lastUpd⟩
  | _ => .error "value is not a valid dict"

/-- `SceneState.parse_obj`. -/
def parseSceneState : PyVal → Except String SceneState
  | .dict d => do
    let tl ←
      match dlookup d "timeline" with
      | Option.none => pure []
      | some (.list xs) => xs.mapM parseStoredEvent
      | some _ => Except.error "value is not a valid list"
    let ws ←
      match dlookup d "world_state" with
      | Option.none => pure ([] : Dict EntityState)
      | some (.dict fields) =>
        fields.mapM fun kv => do
          let es ← parseStoredEntityState kv.2
          pure (kv.1, es)
      | some _ => Except.error "value is not a valid dict"
    return ⟨tl, ws⟩
  | _ => .error "value is not a valid dict"

/-- `load_state`: a missing file, an I/O error, a JSON decoding error,
or a validation error each yield the empty scene state; the function is
total (it never raises). -/
def load_state : StoredFile → SceneState
  | .missing => SceneState.empty
  | .unreadable => SceneState.empty
  | .invalidJson => SceneState.empty
  | .content v =>
    match parseSceneState v with
    | .ok s => s
    | .error _ => SceneState.empty

/-! ### Specification-side definitions (for refinement comparisons) -/

/-- Specification reading of the attribute-similarity winner ("the
winner is the first profile encountered … that strictly exceeds both
zero and the current best score — ties keep the earliest-seen profile"):
the first profile in scan order whose score is positive and not
exceeded by any profile in the scan. Compared against `attributeScan`,
which embeds the source's fold. -/
def firstBestProfile (appearance attributes : Dict PyVal)
    (profiles : List (String × Dict PyVal)) : Option (String × Dict PyVal) :=
  profiles.find? fun pp =>
    decide (0 < scoreProfile appearance attributes pp.2) &&
    profiles.all fun qq =>
      decide (scoreProfile appearance attributes qq.2 ≤ scoreProfile appearance attributes pp.2)

/-- Specification reading of "the stored profile overlaid with the
canonical type": the canonical type unconditionally overwrites the
stored `type` key. Compared against the source's
`profile.setdefault("type", canonical_type)`. -/
def overlayType (profile : Dict PyVal) (canonical : String) : Dict PyVal :=
  dinsert profile "type" (.str canonical)

/-! ### Concrete fixtures for witnesses and counterexamples -/

/-- A deterministic stand-in for the `uuid4().hex` stream: every draw
is the same 32 lowercase hex characters. -/
def hexOracle : Nat → String := fun _ => "0123456789abcdef0123456789abcdef"

/-- An empty profile store. -/
def emptyProfiles : Profiles := ⟨[], [], []⟩

/-- Profile store whose `person` bucket knows `p1` with blue hair. -/
def profilesBlueHair : Profiles :=
  ⟨[("p1", [("id", PyVal.str "p1"), ("name", PyVal.str "Bob"),
            ("appearance", PyVal.dict [("hair", PyVal.str "blue")])])], [], []⟩

/-- First observation: `p1` seen with red hair. -/
def payloadRedHair : PyVal :=
  .dict [("events", .list [.dict [("timestamp", .int 1),
    ("actors", .list [.dict [("id", .str "p1"), ("type", .str "person"),
      ("appearance", .dict [("hair", .str "red")])]])]])]

/-- Second observation: `p1` seen again, no appearance payload at all. -/
def payloadNoHair : PyVal :=
  .dict [("events", .list [.dict [("timestamp", .int 2),
    ("actors", .list [.dict [("id", .str "p1"), ("type", .str "person")]])]])]

/-- Profile store with distinguishable non-empty `person` and `object`
buckets and an empty `unknown` bucket. -/
def profilesMarked : Profiles := ⟨[("x", [])], [("y", [])], []⟩

/-- Profile store whose `person` bucket stores `p1` with its own
`type: "robot"`. -/
def profilesRobot : Profiles := ⟨[("p1", [("type", PyVal.str "robot")])], [], []⟩

/-- Entity declaring `type: "person"` and carrying id `p1`. -/
def entityRobotId : GeminiEntity :=
  ⟨some "p1", Option.none, some "person", [], [], []⟩

/-- A batch whose two events both supply id `e1`. -/
def payloadTwiceE1 : PyVal :=
  .dict [("events", .list [
    .dict [("id", .str "e1"), ("timestamp", .int 1)],
    .dict [("id", .str "e1"), ("timestamp", .int 2)]])]

/-- A batch whose two events arrive in descending timestamp order. -/
def payloadOutOfOrder : PyVal :=
  .dict [("events", .list [
    .dict [("id", .str "late"), ("timestamp", .int 9)],
    .dict [("id", .str "early"), ("timestamp", .int 4)]])]

/-- A non-empty persisted state used to observe that failed ingestion
leaves it untouched. -/
def priorNonEmpty : SceneState :=
  ⟨[⟨"old", 7, "observation", Option.none, Option.none, Option.none, []⟩],
   [("z", ⟨"z", Option.none, "unknown", [], [], Option.none, 0⟩)]⟩

/-! ## Lemmas about the dict operations -/

theorem dlookup_eq_none_iff {α} (d : Dict α) (k : String) :
    dlookup d k = Option.none ↔ k ∉ d.map Prod.fst := by
  induction d with
  | nil => simp [dlookup]
  | cons kv rest ih =>
    obtain ⟨k', v⟩ := kv
    by_cases h : k' = k
    · subst h; simp [dlookup]
    · have hstep : dlookup ((k', v) :: rest) k = dlookup rest k := by simp [dlookup, h]
      rw [hstep, ih, List.map_cons]
      simp [List.mem_cons, Ne.symm h]

theorem mem_keys_of_dlookup_eq_some {α} {d : Dict α} {k : String} {v : α}
    (h : dlookup d k = some v) : k ∈ d.map Prod.fst := by
  by_contra hk
  rw [← dlookup_eq_none_iff] at hk
  rw [h] at hk
  cases hk

theorem dlookup_dinsert_self {α} (d : Dict α) (k : String) (v : α) :
    dlookup (dinsert d k v) k = some v := by
  induction d with
  | nil => simp [dinsert, dlookup]
  | cons kv rest ih =>
    obtain ⟨k', v'⟩ := kv
    by_cases h : k' = k <;> simp [dinsert, dlookup, h, ih]

theorem dlookup_dinsert_ne {α} (d : Dict α) {k' k : String} (h : k' ≠ k) (v : α) :
    dlookup (dinsert d k' v) k = dlookup d k := by
  induction d with
  | nil => simp [dinsert, dlookup, h]
  | cons kv rest ih =>
    obtain ⟨k'', v''⟩ := kv
    by_cases h2 : k'' = k' <;> by_cases h3 : k'' = k <;>
      simp_all [dinsert, dlookup]

theorem dlookup_append_of_some {α} {d1 : Dict α} {k : String} {v : α}
    (d2 : Dict α) (h : dlookup d1 k = some v) : dlookup (d1 ++ d2) k = some v := by
  induction d1 with
  | nil => cases h
  | cons kv rest ih =>
    obtain ⟨k', v'⟩ := kv
    by_cases h2 : k' = k <;> simp_all [dlookup]

theorem dlookup_append_of_none {α} {d1 : Dict α} {k : String}
    (d2 : Dict α) (h : dlookup d1 k = Option.none) :
    dlookup (d1 ++ d2) k = dlookup d2 k := by
  induction d1 with
  | nil => rfl
  | cons kv rest ih =>
    obtain ⟨k', v'⟩ := kv
    by_cases h2 : k' = k <;> simp_all [dlookup]

theorem dlookup_dsetdefault_self_of_none {α} {d : Dict α} {k : String}
    (v : α) (h : dlookup d k = Option.none) :
    dlookup (dsetdefault d k v) k = some v := by
  unfold dsetdefault
  rw [h]
  simp only [Option.isSome_none, Bool.false_eq_true, if_false]
  rw [dlookup_append_of_none _ h]
  simp [dlookup]

theorem dlookup_dsetdefault_of_some {α} {d : Dict α} {k : String} {v : α}
    (k' : String) (v' : α) (h : dlookup d k = some v) :
    dlookup (dsetdefault d k' v') k = some v := by
  unfold dsetdefault
  split
  · exact h
  · exact dlookup_append_of_some _ h

theorem dlookup_dsetdefault_ne {α} (d : Dict α) {k' k : String} (h : k' ≠ k)
    (v' : α) : dlookup (dsetdefault d k' v') k = dlookup d k := by
  unfold dsetdefault
  split
  · rfl
  · cases hd : dlookup d k with
    | none => rw [dlookup_append_of_none _ hd]; simp [dlookup, h]
    | some v => rw [dlookup_append_of_some _ hd]

theorem dlookup_dremove_ne {α} (d : Dict α) {k' k : String} (h : k' ≠ k) :
    dlookup (dremove d k') k = dlookup d k := by
  induction d with
  | nil => rfl
  | cons kv rest ih =>
    obtain ⟨k'', v''⟩ := kv
    by_cases h2 : k'' = k' <;> by_cases h3 : k'' = k <;>
      simp_all [dremove, dlookup]

theorem dlookup_dupdate_of_none {α} {o : Dict α} {k : String}
    (h : dlookup o k = Option.none) (d : Dict α) :
    dlookup (dupdate d o) k = dlookup d k := by
  induction o generalizing d with
  | nil => rfl
  | cons kv rest ih =>
    obtain ⟨k', v'⟩ := kv
    by_cases hk : k' = k
    · simp [dlookup, hk] at h
    · have hrest : dlookup rest k = Option.none := by simpa [dlookup, hk] using h
      show dlookup (dupdate (dinsert d k' v') rest) k = dlookup d k
      rw [ih hrest, dlookup_dinsert_ne _ hk]

/-! ## Lemmas about the relocation loop -/

theorem relocate_foldl_md_preserve (known : List String) :
    ∀ (ks : List String) (st : Dict PyVal × Dict PyVal) (k : String) (v : PyVal),
      dlookup st.2 k = some v →
      dlookup (ks.foldl (relocateStep known) st).2 k = some v := by
  intro ks
  induction ks with
  | nil => exact fun st k v h => h
  | cons k' rest ih =>
    intro st k v h
    rw [List.foldl_cons]
    apply ih
    unfold relocateStep
    split
    · exact h
    · cases hl : dlookup st.1 k' with
      | none => exact h
      | some w => exact dlookup_dsetdefault_of_some k' w h

theorem relocate_foldl_md_moves (known : List String) :
    ∀ (ks : List String) (st : Dict PyVal × Dict PyVal) (k : String) (v : PyVal),
      k ∉ known → k ∈ ks → dlookup st.1 k = some v →
      dlookup st.2 k = Option.none →
      dlookup (ks.foldl (relocateStep known) st).2 k = some v := by
  intro ks
  induction ks with
  | nil => intro st k v _ hmem; cases hmem
  | cons k' rest ih =>
    intro st k v hknown hmem hdata hmd
    rw [List.foldl_cons]
    by_cases hk : k' = k
    · subst hk
      have hstep : relocateStep known st k' =
          (dremove st.1 k', dsetdefault st.2 k' v) := by
        unfold relocateStep
        simp only [hknown, if_false]
        rw [hdata]
      rw [hstep]
      exact relocate_foldl_md_preserve known rest _ k' v
        (dlookup_dsetdefault_self_of_none v hmd)
    · have hmem' : k ∈ rest := by
        rcases List.mem_cons.mp hmem with he | hm
        · exact absurd he.symm hk
        · exact hm
      apply ih _ k v hknown hmem'
      · unfold relocateStep
        split
        · exact hdata
        · cases hl : dlookup st.1 k' with
          | none => exact hdata
          | some w => simpa [dlookup_dremove_ne _ hk] using hdata
      · unfold relocateStep
        split
        · exact hmd
        · cases hl : dlookup st.1 k' with
          | none => exact hmd
          | some w => simpa [dlookup_dsetdefault_ne _ hk] using hmd

theorem relocate_foldl_data_known (known : List String) :
    ∀ (ks : List String) (st : Dict PyVal × Dict PyVal) (k : String),
      k ∈ known →
      dlookup (ks.foldl (relocateStep known) st).1 k = dlookup st.1 k := by
  intro ks
  induction ks with
  | nil => exact fun st k _ => rfl
  | cons k' rest ih =>
    intro st k hk
    rw [List.foldl_cons, ih _ k hk]
    unfold relocateStep
    split
    · rfl
    · rename_i hk'
      have hne : k' ≠ k := fun he => hk' (he ▸ hk)
      cases hl : dlookup st.1 k' with
      | none => rfl
      | some w => exact dlookup_dremove_ne _ hne

theorem relocateKeys_md_preserve {known : List String} {data md : Dict PyVal}
    {k : String} {v : PyVal} (h : dlookup md k = some v) :
    dlookup (relocateKeys known data md).2 k = some v :=
  relocate_foldl_md_preserve known _ _ k v h

theorem relocateKeys_md_moves {known : List String} {data md : Dict PyVal}
    {k : String} {v : PyVal} (hknown : k ∉ known)
    (hdata : dlookup data k = some v) (hmd : dlookup md k = Option.none) :
    dlookup (relocateKeys known data md).2 k = some v :=
  relocate_foldl_md_moves known _ _ k v hknown
    (mem_keys_of_dlookup_eq_some hdata) hdata hmd

theorem relocateKeys_data_known {known : List String} {data md : Dict PyVal}
    {k : String} (hk : k ∈ known) :
    dlookup (relocateKeys known data md).1 k = dlookup data k :=
  relocate_foldl_data_known known _ _ k hk

/-! ## Lemmas about the normalisers -/

theorem pyGet_dinsert_self (d : Dict PyVal) (k : String) (v : PyVal) :
    pyGet (dinsert d k v) k = v := by
  unfold pyGet dget
  rw [dlookup_dinsert_self]
  rfl

theorem pyGet_dinsert_ne (d : Dict PyVal) {k' k : String} (h : k' ≠ k)
    (v : PyVal) : pyGet (dinsert d k' v) k = pyGet d k := by
  unfold pyGet dget
  rw [dlookup_dinsert_ne _ h]

theorem pyGet_dsetdefault_ne (d : Dict PyVal) {k' k : String} (h : k' ≠ k)
    (v : PyVal) : pyGet (dsetdefault d k' v) k = pyGet d k := by
  unfold pyGet dget
  rw [dlookup_dsetdefault_ne _ h]

/-- Keys other than the six the pre-steps of `_normalise_event` write
are untouched before the relocation loop. -/
theorem dlookup_preEventData_ne (values : Dict PyVal) (k : String)
    (h1 : k ≠ "event_id") (h2 : k ≠ "timestamp") (h3 : k ≠ "action")
    (h4 : k ≠ "summary") (h5 : k ≠ "actors") (h6 : k ≠ "targets") :
    dlookup (preEventData values) k = dlookup values k := by
  unfold preEventData
  dsimp only
  repeat' split
  all_goals
    simp only [dlookup_dinsert_ne, dlookup_dsetdefault_ne, ne_eq,
      Ne.symm h1, Ne.symm h2, Ne.symm h3, Ne.symm h4, Ne.symm h5, Ne.symm h6,
      not_false_eq_true]

/-- The `"timestamp"` entry the pre-steps leave behind is exactly the
alias chain evaluated on the raw event dict. -/
theorem dlookup_preEventData_timestamp (values : Dict PyVal) :
    dlookup (preEventData values) "timestamp" = some (eventTimestampAlias values) := by
  have halias : eventTimestampAlias
      (dinsert values "event_id" (pyOr (pyGet values "event_id") (pyGet values "id")))
      = eventTimestampAlias values := by
    unfold eventTimestampAlias
    rw [pyGet_dinsert_ne _ (by decide), pyGet_dinsert_ne _ (by decide),
      pyGet_dinsert_ne _ (by decide)]
  unfold preEventData
  dsimp only
  repeat' split
  all_goals
    simp only [dlookup_dinsert_ne, dlookup_dsetdefault_ne, ne_eq,
      String.reduceEq, not_false_eq_true, dlookup_dinsert_self, halias]

/-- The timestamp value the validator receives is the alias chain on the
raw event dict. -/
theorem normaliseEventFields_timestamp (values : Dict PyVal) :
    pyGet (normaliseEventFields values) "timestamp" = eventTimestampAlias values := by
  unfold normaliseEventFields
  dsimp only
  rw [pyGet_dinsert_ne _ (by decide)]
  unfold pyGet dget
  rw [relocateKeys_data_known (by decide), dlookup_preEventData_timestamp]
  rfl

/-- Metadata relocation for `GeminiEntity._normalise_fields`: an
unrecognised input key whose name is not already bound in the incoming
metadata bag lands in the output metadata bag with its value intact. -/
theorem normaliseEntityFields_metadata_moves {values : Dict PyVal} {k : String}
    {v : PyVal} (hk : k ∉ entityKnownKeys)
    (hval : dlookup values k = some v)
    (hmd : dlookup (asDict (pyOr (pyGet values "metadata") (.dict []))) k = Option.none) :
    dlookup (asDict (pyGet (normaliseEntityFields values) "metadata")) k = some v := by
  have hka : k ≠ "appearance" := fun he => hk (he ▸ (by decide))
  have hkt : k ≠ "attributes" := fun he => hk (he ▸ (by decide))
  unfold normaliseEntityFields
  dsimp only
  rw [pyGet_dinsert_self]
  unfold asDict
  apply relocateKeys_md_moves hk
  · rw [dlookup_dsetdefault_ne _ (Ne.symm hkt), dlookup_dsetdefault_ne _ (Ne.symm hka)]
    exact hval
  · rw [pyGet_dsetdefault_ne _ (by decide), pyGet_dsetdefault_ne _ (by decide)]
    exact hmd

/-- Metadata relocation for `GeminiEvent._normalise_event`. -/
theorem normaliseEventFields_metadata_moves {values : Dict PyVal} {k : String}
    {v : PyVal} (hk : k ∉ eventKnownKeys)
    (hval : dlookup values k = some v)
    (hmd : dlookup (asDict (pyOr (pyGet values "metadata") (.dict []))) k = Option.none) :
    dlookup (asDict (pyGet (normaliseEventFields values) "metadata")) k = some v := by
  have hpre : dlookup (preEventData values) k = dlookup values k :=
    dlookup_preEventData_ne values k
      (fun he => hk (he ▸ (by decide))) (fun he => hk (he ▸ (by decide)))
      (fun he => hk (he ▸ (by decide))) (fun he => hk (he ▸ (by decide)))
      (fun he => hk (he ▸ (by decide))) (fun he => hk (he ▸ (by decide)))
  have hpremd : dlookup (preEventData values) "metadata" = dlookup values "metadata" :=
    dlookup_preEventData_ne values "metadata" (by decide) (by decide) (by decide)
      (by decide) (by decide) (by decide)
  unfold normaliseEventFields
  dsimp only
  rw [pyGet_dinsert_self]
  unfold asDict
  apply relocateKeys_md_moves hk
  · rw [hpre]; exact hval
  · show dlookup (asDict (pyOr (pyGet (preEventData values) "metadata") (.dict []))) k
      = Option.none
    unfold pyGet dget
    rw [hpremd]
    exact hmd

/-- Metadata relocation for `GeminiPayload._normalise_payload`. -/
theorem normalisePayloadFields_metadata_moves {values : Dict PyVal} {k : String}
    {v : PyVal} (hk : k ∉ payloadKnownKeys)
    (hval : dlookup values k = some v)
    (hmd : dlookup (asDict (pyOr (pyGet values "metadata") (.dict []))) k = Option.none) :
    dlookup (asDict (pyGet (normalisePayloadFields values) "metadata")) k = some v := by
  have hke : k ≠ "events" := fun he => hk (he ▸ (by decide))
  unfold normalisePayloadFields
  dsimp only
  rw [pyGet_dinsert_self]
  unfold asDict
  apply relocateKeys_md_moves hk
  · rw [dlookup_dsetdefault_ne _ (Ne.symm hke)]; exact hval
  · rw [pyGet_dsetdefault_ne _ (by decide)]
    exact hmd

/-! ## Lemmas about validation-failure propagation -/

/-- An event whose aliased timestamp value fails coercion cannot
validate. -/
theorem parseGeminiEvent_error_of_bad_timestamp {values : Dict PyVal} {msg : String}
    (hbad : coerceTimestamp (eventTimestampAlias values) = .error msg) :
    ∃ e, parseGeminiEvent (.dict values) = .error e := by
  have hts : coerceTimestamp (pyGet (normaliseEventFields values) "timestamp")
      = .error msg := by
    rw [normaliseEventFields_timestamp]
    exact hbad
  unfold parseGeminiEvent
  cases h1 : parseOptStrField (aliasField (normaliseEventFields values) "id" "event_id") with
  | error e => exact ⟨e, by simp [h1, Bind.bind, Except.bind]⟩
  | ok a => exact ⟨msg, by simp [h1, hts, Bind.bind, Except.bind]⟩

/-- If any element of a list fails an `Except`-valued map, the whole
`mapM` fails. -/
theorem mapM_error_of_mem {α β : Type} (f : α → Except String β) :
    ∀ {xs : List α} {x : α} {e : String}, x ∈ xs → f x = .error e →
      ∃ e', xs.mapM f = .error e' := by
  intro xs
  induction xs with
  | nil => intro x e hmem; cases hmem
  | cons y ys ih =>
    intro x e hmem hx
    rw [List.mapM_cons]
    rcases List.mem_cons.mp hmem with he | hm
    · subst he
      exact ⟨e, by simp [hx, Bind.bind, Except.bind]⟩
    · cases hy : f y with
      | error e2 => exact ⟨e2, by simp [hy, Bind.bind, Except.bind]⟩
      | ok b =>
        obtain ⟨e', he'⟩ := ih hm hx
        have hloop : List.mapM.loop f ys [] = Except.error e' := he'
        exact ⟨e', by simp [hy, hloop, Bind.bind, Except.bind]⟩

/-- A payload containing an event dict whose aliased timestamp value
fails coercion cannot validate. -/
theorem parseGeminiPayload_error_of_bad_timestamp {gf : Dict PyVal}
    {evs : List PyVal} {fields : Dict PyVal} {msg : String}
    (hev : dlookup (normalisePayloadFields gf) "events" = some (.list evs))
    (hmem : PyVal.dict fields ∈ evs)
    (hbad : coerceTimestamp (eventTimestampAlias fields) = .error msg) :
    ∃ e, parseGeminiPayload (.dict gf) = .error e := by
  obtain ⟨e1, he1⟩ := parseGeminiEvent_error_of_bad_timestamp hbad
  obtain ⟨e2, he2⟩ := mapM_error_of_mem parseGeminiEvent hmem he1
  refine ⟨e2, ?_⟩
  have hloop : List.mapM.loop parseGeminiEvent evs [] = Except.error e2 := he2
  unfold parseGeminiPayload
  dsimp only
  rw [hev]
  simp [hloop, Bind.bind, Except.bind]

/-! ## Lemmas about the attribute-similarity scan -/

theorem find?_congr_mem {α} {p q : α → Bool} :
    ∀ {l : List α}, (∀ x ∈ l, p x = q x) → l.find? p = l.find? q := by
  intro l
  induction l with
  | nil => intro _; rfl
  | cons x xs ih =>
    intro h
    have hx := h x (List.mem_cons_self x xs)
    cases hpx : p x with
    | true =>
      rw [List.find?_cons_of_pos _ hpx, List.find?_cons_of_pos _ (hx ▸ hpx)]
    | false =>
      rw [List.find?_cons_of_neg _ (by simp [hpx]),
        List.find?_cons_of_neg _ (by simp [← hx, hpx])]
      exact ih fun y hy => h y (List.mem_cons_of_mem x hy)

theorem exists_list_max {α} (f : α → Nat) :
    ∀ (l : List α), l ≠ [] → ∃ x ∈ l, ∀ y ∈ l, f y ≤ f x := by
  intro l
  induction l with
  | nil => intro h; exact absurd rfl h
  | cons x xs ih =>
    intro _
    by_cases hxs : xs = []
    · subst hxs
      exact ⟨x, by simp, by simp⟩
    · obtain ⟨w, hwmem, hwmax⟩ := ih hxs
      by_cases hcmp : f x ≤ f w
      · refine ⟨w, List.mem_cons_of_mem x hwmem, ?_⟩
        intro y hy
        rcases List.mem_cons.mp hy with rfl | hy'
        · exact hcmp
        · exact hwmax y hy'
      · refine ⟨x, by simp, ?_⟩
        intro y hy
        rcases List.mem_cons.mp hy with rfl | hy'
        · exact le_refl _
        · exact le_trans (hwmax y hy') (le_of_not_le hcmp)

/-- The source's best-score fold, started from an arbitrary
`(best_score, best_match)` pair, returns the first profile that is
positive-and-maximal above the starting threshold, else the starting
match. -/
theorem attributeScan_foldl_eq (app attr : Dict PyVal) :
    ∀ (l : List (String × Dict PyVal)) (s : Nat) (m : Option (String × Dict PyVal)),
      (l.foldl (fun acc pp =>
        let score := scoreProfile app attr pp.2
        if score > acc.1 ∧ score > 0 then (score, some pp) else acc) (s, m)).2
      =
      match l.find? (fun pp =>
          decide (s < scoreProfile app attr pp.2) &&
          l.all fun qq =>
            decide (scoreProfile app attr qq.2 ≤ scoreProfile app attr pp.2)) with
      | some pp => some pp
      | Option.none => m := by
  intro l
  induction l with
  | nil => intro s m; rfl
  | cons pp rest ih =>
    intro s m
    rw [List.foldl_cons]
    dsimp only
    by_cases hs : s < scoreProfile app attr pp.2
    · rw [if_pos ⟨hs, by omega⟩, ih]
      by_cases hmax : ∀ qq ∈ rest,
          scoreProfile app attr qq.2 ≤ scoreProfile app attr pp.2
      · have hfr : rest.find? (fun x =>
            decide (scoreProfile app attr pp.2 < scoreProfile app attr x.2) &&
            rest.all fun qq =>
              decide (scoreProfile app attr qq.2 ≤ scoreProfile app attr x.2))
            = Option.none := by
          rw [List.find?_eq_none]
          intro x hx
          simp only [Bool.and_eq_true, decide_eq_true_eq, not_and]
          intro hgt
          exact absurd hgt (not_lt.mpr (hmax x hx))
        have hpred : (decide (s < scoreProfile app attr pp.2) &&
            (pp :: rest).all fun qq =>
              decide (scoreProfile app attr qq.2 ≤ scoreProfile app attr pp.2)) = true := by
          simp only [Bool.and_eq_true, decide_eq_true_eq, List.all_eq_true]
          refine ⟨hs, ?_⟩
          intro qq hqq
          rcases List.mem_cons.mp hqq with rfl | hm
          · simp
          · simp [hmax qq hm]
        have hrw : (pp :: rest).find? (fun x =>
            decide (s < scoreProfile app attr x.2) &&
            (pp :: rest).all fun qq =>
              decide (scoreProfile app attr qq.2 ≤ scoreProfile app attr x.2))
            = some pp := by
          simp only [List.find?_cons]
          rw [hpred]
        rw [hfr, hrw]
      · push_neg at hmax
        obtain ⟨w, hwmem, hw⟩ := hmax
        have hpred : (decide (s < scoreProfile app attr pp.2) &&
            (pp :: rest).all fun qq =>
              decide (scoreProfile app attr qq.2 ≤ scoreProfile app attr pp.2)) = false := by
          simp only [Bool.and_eq_false_iff]
          right
          rw [List.all_eq_false]
          exact ⟨w, List.mem_cons_of_mem pp hwmem, by simp [not_le.mpr hw]⟩
        have hrw : (pp :: rest).find? (fun x =>
            decide (s < scoreProfile app attr x.2) &&
            (pp :: rest).all fun qq =>
              decide (scoreProfile app attr qq.2 ≤ scoreProfile app attr x.2))
            = rest.find? (fun x =>
            decide (s < scoreProfile app attr x.2) &&
            (pp :: rest).all fun qq =>
              decide (scoreProfile app attr qq.2 ≤ scoreProfile app attr x.2)) := by
          simp only [List.find?_cons]
          rw [hpred]
        rw [hrw]
        have hcongr : rest.find? (fun x =>
            decide (scoreProfile app attr pp.2 < scoreProfile app attr x.2) &&
            rest.all fun qq =>
              decide (scoreProfile app attr qq.2 ≤ scoreProfile app attr x.2))
            = rest.find? (fun x =>
            decide (s < scoreProfile app attr x.2) &&
            (pp :: rest).all fun qq =>
              decide (scoreProfile app attr qq.2 ≤ scoreProfile app attr x.2)) := by
          apply find?_congr_mem
          intro x hx
          by_cases hgt : scoreProfile app attr pp.2 < scoreProfile app attr x.2
          · have hsx : s < scoreProfile app attr x.2 := lt_trans hs hgt
            simp [List.all_cons, hgt, hsx, le_of_lt hgt]
          · have hLHS : decide
                (scoreProfile app attr pp.2 < scoreProfile app attr x.2) = false := by
              simp [hgt]
            rw [hLHS, Bool.false_and]
            by_cases heq : scoreProfile app attr x.2 = scoreProfile app attr pp.2
            · have hallb : (rest.all fun qq =>
                  decide (scoreProfile app attr qq.2 ≤ scoreProfile app attr x.2))
                  = false := by
                rw [List.all_eq_false]
                refine ⟨w, hwmem, ?_⟩
                simp only [decide_eq_true_eq]
                omega
              symm
              simp [List.all_cons, hallb]
            · have hlt : scoreProfile app attr x.2 < scoreProfile app attr pp.2 :=
                lt_of_le_of_ne (not_lt.mp hgt) heq
              symm
              simp [List.all_cons, not_le.mpr hlt]
        obtain ⟨xm, hxmem, hxmax⟩ := exists_list_max
          (fun x => scoreProfile app attr x.2) rest (List.ne_nil_of_mem hwmem)
        have hfind : ∃ y, rest.find? (fun x =>
            decide (scoreProfile app attr pp.2 < scoreProfile app attr x.2) &&
            rest.all fun qq =>
              decide (scoreProfile app attr qq.2 ≤ scoreProfile app attr x.2))
            = some y := by
          cases hf : rest.find? (fun x =>
            decide (scoreProfile app attr pp.2 < scoreProfile app attr x.2) &&
            rest.all fun qq =>
              decide (scoreProfile app attr qq.2 ≤ scoreProfile app attr x.2)) with
          | some y => exact ⟨y, rfl⟩
          | none =>
            rw [List.find?_eq_none] at hf
            refine absurd ?_ (hf xm hxmem)
            simp only [Bool.and_eq_true, decide_eq_true_eq, List.all_eq_true]
            refine ⟨lt_of_lt_of_le hw (hxmax w hwmem), ?_⟩
            intro qq hqq
            simp [hxmax qq hqq]
        obtain ⟨y, hy⟩ := hfind
        rw [hy, ← hcongr, hy]
    · rw [if_neg (fun hcond => hs hcond.1), ih]
      have hpredf : (decide (s < scoreProfile app attr pp.2) &&
          (pp :: rest).all fun qq =>
            decide (scoreProfile app attr qq.2 ≤ scoreProfile app attr pp.2)) = false := by
        simp [hs]
      have hrw : (pp :: rest).find? (fun x =>
          decide (s < scoreProfile app attr x.2) &&
          (pp :: rest).all fun qq =>
            decide (scoreProfile app attr qq.2 ≤ scoreProfile app attr x.2))
          = rest.find? (fun x =>
          decide (s < scoreProfile app attr x.2) &&
          (pp :: rest).all fun qq =>
            decide (scoreProfile app attr qq.2 ≤ scoreProfile app attr x.2)) := by
        simp only [List.find?_cons]
        rw [hpredf]
      have hcongr2 : rest.find? (fun x =>
          decide (s < scoreProfile app attr x.2) &&
          rest.all fun qq =>
            decide (scoreProfile app attr qq.2 ≤ scoreProfile app attr x.2))
          = rest.find? (fun x =>
          decide (s < scoreProfile app attr x.2) &&
          (pp :: rest).all fun qq =>
            decide (scoreProfile app attr qq.2 ≤ scoreProfile app attr x.2)) := by
        apply find?_congr_mem
        intro x hx
        by_cases hsx : s < scoreProfile app attr x.2
        · have hple : scoreProfile app attr pp.2 ≤ scoreProfile app attr x.2 :=
            le_trans (not_lt.mp hs) (le_of_lt hsx)
          simp [List.all_cons, hsx, hple]
        · simp [hsx]
      rw [hrw, ← hcongr2]

/-! ## Lemmas about event-id freshening and the ingest loop -/

theorem updateWorldState_timeline (state : SceneState) (event : Event) :
    (updateWorldState state event).timeline = state.timeline := rfl

/-- Every stored id is at most `maxIdLength` long. -/
theorem length_le_maxIdLength {existing : List String} {s : String}
    (h : s ∈ existing) : s.length ≤ maxIdLength existing := by
  induction existing with
  | nil => cases h
  | cons x xs ih =>
    rcases List.mem_cons.mp h with rfl | hm
    · exact le_max_left _ _
    · exact le_trans (ih hm) (le_max_right _ _)

/-- With enough fuel left relative to the longest stored id, the
suffixing loop returns an id that does not collide with the running id
set. -/
theorem freshEventIdAux_not_mem (existing : List String) (oracle : Nat → String) :
    ∀ (fuel : Nat) (eid : String) (ctr : Nat),
      maxIdLength existing < eid.length + fuel →
      (freshEventIdAux existing oracle fuel eid ctr).1 ∉ existing := by
  intro fuel
  induction fuel with
  | zero =>
    intro eid ctr hlen hmem
    rw [freshEventIdAux] at hmem
    dsimp only at hmem
    have := length_le_maxIdLength hmem
    omega
  | succ n ih =>
    intro eid ctr hlen
    rw [freshEventIdAux]
    split
    · apply ih
      have hgrow : eid.length + 1 ≤ (eid ++ "-" ++ strTake (oracle ctr) 4).length := by
        have h1 : (eid ++ "-" ++ strTake (oracle ctr) 4).length
            = eid.length + 1 + (strTake (oracle ctr) 4).length := by
          simp [String.length_append]
          decide
        omega
      omega
    · rename_i hnm
      exact hnm

/-- The suffixing loop returns an id that does not collide with the
running id set. -/
theorem freshEventId_not_mem (existing : List String) (oracle : Nat → String) :
    ∀ (eid : String) (ctr : Nat),
      (freshEventId existing oracle eid ctr).1 ∉ existing := by
  intro eid ctr
  exact freshEventIdAux_not_mem existing oracle (maxIdLength existing + 1) eid ctr
    (by omega)

/-- The id of the event built by one loop iteration does not collide
with the running id set. -/
theorem builtEvent_id_not_mem (P : Profiles) (oracle : Nat → String)
    (md : Dict PyVal) (raw : GeminiEvent) (index : Nat)
    (existing : List String) (ctr : Nat) :
    (builtEvent P oracle md raw index existing ctr).1.id ∉ existing :=
  freshEventId_not_mem existing oracle _ ctr

/-- One loop iteration appends exactly the built event to the timeline
and records its id in the running set. -/
theorem ingestStep_shape (P : Profiles) (oracle : Nat → String)
    (md : Dict PyVal) (raw : GeminiEvent) (index : Nat) (state : SceneState)
    (existing : List String) (ctr : Nat) :
    (ingestStep P oracle md raw index state existing ctr).1.timeline
      = state.timeline ++ [(builtEvent P oracle md raw index existing ctr).1] ∧
    (ingestStep P oracle md raw index state existing ctr).2.1
      = existing ++ [(builtEvent P oracle md raw index existing ctr).1.id] :=
  ⟨rfl, rfl⟩

/-- Every event the loop produces carries an id distinct from all ids in
the running set it started from and from every other produced id;
consequently the timeline ids stay pairwise distinct. -/
theorem ingestLoop_ids (P : Profiles) (oracle : Nat → String) (md : Dict PyVal) :
    ∀ (evs : List GeminiEvent) (index : Nat) (state : SceneState)
      (existing : List String) (ctr : Nat),
      (∀ e ∈ state.timeline, e.id ∈ existing) →
      (state.timeline.map Event.id).Nodup →
      ((ingestLoop P oracle md evs index state existing ctr).1.timeline.map Event.id).Nodup ∧
      (∀ e ∈ (ingestLoop P oracle md evs index state existing ctr).1.timeline,
        e.id ∈ (ingestLoop P oracle md evs index state existing ctr).2.1) := by
  intro evs
  induction evs with
  | nil =>
    intro index state existing ctr hsub hnd
    exact ⟨hnd, hsub⟩
  | cons raw rest ih =>
    intro index state existing ctr hsub hnd
    obtain ⟨htl, hex⟩ := ingestStep_shape P oracle md raw index state existing ctr
    set ev := (builtEvent P oracle md raw index existing ctr).1 with hev
    have hnin : ev.id ∉ existing := builtEvent_id_not_mem P oracle md raw index existing ctr
    have hunfold : ingestLoop P oracle md (raw :: rest) index state existing ctr
        = ingestLoop P oracle md rest (index + 1)
          (ingestStep P oracle md raw index state existing ctr).1
          (ingestStep P oracle md raw index state existing ctr).2.1
          (ingestStep P oracle md raw index state existing ctr).2.2 := rfl
    rw [hunfold]
    apply ih
    · intro e he
      rw [htl] at he
      rw [hex]
      rcases List.mem_append.mp he with hold | hnew
      · exact List.mem_append_left _ (hsub e hold)
      · rw [List.mem_singleton.mp hnew]
        exact List.mem_append_right _ (List.mem_singleton.mpr rfl)
    · rw [htl, List.map_append]
      rw [List.nodup_append]
      refine ⟨hnd, List.nodup_singleton _, ?_⟩
      intro a ha
      have haex : a ∈ existing := by
        obtain ⟨e, hem, hea⟩ := List.mem_map.mp ha
        exact hea ▸ hsub e hem
      simp only [List.map_cons, List.map_nil, List.mem_singleton]
      intro haeq
      exact hnin (haeq ▸ haex)

/-! ## Lemmas about participant construction and world-state merging -/

/-- A key supplied neither by the matched profile's appearance nor by
the observation is absent from the built participant's appearance. -/
theorem buildEventActorC_appearance_none (P : Profiles) (oracle : Nat → String)
    (ctr : Nat) (entity : GeminiEntity) (k : String)
    (hprof : dlookup (asDict (pyOr
      (pyGet (resolveIdentityC P oracle ctr entity).1.2 "appearance") (.dict []))) k
      = Option.none)
    (hobs : dlookup entity.appearance k = Option.none) :
    dlookup (buildEventActorC P oracle ctr entity).1.appearance k = Option.none := by
  unfold buildEventActorC
  dsimp only
  rw [dlookup_dupdate_of_none hobs, dlookup_dupdate_of_none hprof]
  rfl

/-- A key supplied neither by the matched profile's attributes nor by
the observation is absent from the built participant's attributes. -/
theorem buildEventActorC_attributes_none (P : Profiles) (oracle : Nat → String)
    (ctr : Nat) (entity : GeminiEntity) (k : String)
    (hprof : dlookup (asDict (pyOr
      (pyGet (resolveIdentityC P oracle ctr entity).1.2 "attributes") (.dict []))) k
      = Option.none)
    (hobs : dlookup entity.attributes k = Option.none) :
    dlookup (buildEventActorC P oracle ctr entity).1.attributes k = Option.none := by
  unfold buildEventActorC
  dsimp only
  rw [dlookup_dupdate_of_none hobs, dlookup_dupdate_of_none hprof]
  rfl

/-- Merging a participant into the world state preserves the value of
any appearance key the participant does not carry. -/
theorem applyParticipant_preserves_absent_appearance
    (ws : Dict EntityState) (eventId : String) (ts : Int) (p : EventActor)
    (k : String) (v : PyVal) (est : EntityState)
    (hws : dlookup ws p.entity_id = some est)
    (happ : dlookup est.appearance k = some v)
    (hpk : dlookup p.appearance k = Option.none) :
    ∃ est', dlookup (applyParticipant ws eventId ts p) p.entity_id = some est' ∧
      dlookup est'.appearance k = some v := by
  unfold applyParticipant
  rw [hws]
  dsimp only
  refine ⟨_, dlookup_dinsert_self _ _ _, ?_⟩
  split_ifs <;> simp [dlookup_dupdate_of_none hpk, happ]

/-- Merging a participant into the world state preserves the value of
any attribute key the participant does not carry. -/
theorem applyParticipant_preserves_absent_attributes
    (ws : Dict EntityState) (eventId : String) (ts : Int) (p : EventActor)
    (k : String) (v : PyVal) (est : EntityState)
    (hws : dlookup ws p.entity_id = some est)
    (hattr : dlookup est.attributes k = some v)
    (hpk : dlookup p.attributes k = Option.none) :
    ∃ est', dlookup (applyParticipant ws eventId ts p) p.entity_id = some est' ∧
      dlookup est'.attributes k = some v := by
  unfold applyParticipant
  rw [hws]
  dsimp only
  refine ⟨_, dlookup_dinsert_self _ _ _, ?_⟩
  split_ifs <;> simp [dlookup_dupdate_of_none hpk, hattr]

/-! ## Claim theorems -/

/-- C1, counterexample: the claim fails as stated. With a profile store
whose `person` bucket knows `p1` with `hair: blue`, observing `p1` with
`hair: red` and then observing `p1` again with no appearance payload at
all leaves `hair = blue` in the world state: the merged participant of
the second event re-imports the profile's `hair` value and overwrites
the previously observed `red`, although the key `hair` is absent from
the second observation's payload. -/
theorem c1_counterexample :
    ((dlookup ((ingest profilesBlueHair hexOracle payloadRedHair
        SceneState.empty).2).world_state "p1").map
      fun es => dlookup es.appearance "hair") = some (some (PyVal.str "red")) ∧
    ((dlookup ((ingest profilesBlueHair hexOracle payloadNoHair
        (ingest profilesBlueHair hexOracle payloadRedHair SceneState.empty).2).2).world_state
        "p1").map
      fun es => dlookup es.appearance "hair") = some (some (PyVal.str "blue")) ∧
    PyVal.str "red" ≠ PyVal.str "blue" := by
  refine ⟨rfl, rfl, ?_⟩
  intro h
  simp only [PyVal.str.injEq] at h
  exact absurd h (by decide)

/-- C1, amended: a world-state appearance (resp. attributes) key keeps
its value across a new observation of the entity provided the key is
absent from the observation's payload *and* from the matched profile —
the merged participant then does not carry the key, and
`_update_world_state` preserves it. -/
theorem c1_amended_merge_monotonicity :
    (∀ (P : Profiles) (oracle : Nat → String) (ctr : Nat) (entity : GeminiEntity)
      (ws : Dict EntityState) (eventId : String) (ts : Int) (k : String)
      (v : PyVal) (est : EntityState),
      dlookup ws (buildEventActorC P oracle ctr entity).1.entity_id = some est →
      dlookup est.appearance k = some v →
      dlookup (asDict (pyOr
        (pyGet (resolveIdentityC P oracle ctr entity).1.2 "appearance") (.dict []))) k
        = Option.none →
      dlookup entity.appearance k = Option.none →
      ∃ est', dlookup (applyParticipant ws eventId ts
          (buildEventActorC P oracle ctr entity).1)
          (buildEventActorC P oracle ctr entity).1.entity_id = some est' ∧
        dlookup est'.appearance k = some v) ∧
    (∀ (P : Profiles) (oracle : Nat → String) (ctr : Nat) (entity : GeminiEntity)
      (ws : Dict EntityState) (eventId : String) (ts : Int) (k : String)
      (v : PyVal) (est : EntityState),
      dlookup ws (buildEventActorC P oracle ctr entity).1.entity_id = some est →
      dlookup est.attributes k = some v →
      dlookup (asDict (pyOr
        (pyGet (resolveIdentityC P oracle ctr entity).1.2 "attributes") (.dict []))) k
        = Option.none →
      dlookup entity.attributes k = Option.none →
      ∃ est', dlookup (applyParticipant ws eventId ts
          (buildEventActorC P oracle ctr entity).1)
          (buildEventActorC P oracle ctr entity).1.entity_id = some est' ∧
        dlookup est'.attributes k = some v) := by
  constructor
  · intro P oracle ctr entity ws eventId ts k v est hws happ hprof hobs
    exact applyParticipant_preserves_absent_appearance ws eventId ts _ k v est hws happ
      (buildEventActorC_appearance_none P oracle ctr entity k hprof hobs)
  · intro P oracle ctr entity ws eventId ts k v est hws hattr hprof hobs
    exact applyParticipant_preserves_absent_attributes ws eventId ts _ k v est hws hattr
      (buildEventActorC_attributes_none P oracle ctr entity k hprof hobs)

theorem c1_amended_merge_monotonicity_witness :
    ∃ est', dlookup (applyParticipant
        [("p1", ⟨"p1", Option.none, "person", [("hair", PyVal.str "red")], [],
          Option.none, 1⟩)] "e2" 2
        (buildEventActorC emptyProfiles hexOracle 0
          ⟨some "p1", Option.none, some "person", [], [], []⟩).1)
        (buildEventActorC emptyProfiles hexOracle 0
          ⟨some "p1", Option.none, some "person", [], [], []⟩).1.entity_id = some est' ∧
      dlookup est'.appearance "hair" = some (PyVal.str "red") :=
  c1_amended_merge_monotonicity.1 emptyProfiles hexOracle 0
    ⟨some "p1", Option.none, some "person", [], [], []⟩
    [("p1", ⟨"p1", Option.none, "person", [("hair", PyVal.str "red")], [],
      Option.none, 1⟩)] "e2" 2 "hair" (PyVal.str "red") _ rfl rfl rfl rfl

/-- C2, counterexample: under the source's 3-letter-prefix test,
`"people"` does not start with `"per"` and `"items"` does not start with
`"obj"`, so neither selects the person/object bucket as the claim
states; both fall to the `unknown` bucket with the raw type string as
canonical type. -/
theorem c2_counterexample :
    canonicalBucket profilesMarked (some "people") ≠ ("person", profilesMarked.person) ∧
    canonicalBucket profilesMarked (some "items") ≠ ("object", profilesMarked.object) ∧
    canonicalBucket profilesMarked (some "people") = ("people", profilesMarked.unknown) ∧
    canonicalBucket profilesMarked (some "items") = ("items", profilesMarked.unknown) := by
  refine ⟨?_, ?_, rfl, rfl⟩
  · intro h
    have h1 : ("people" : String) = "person" := congrArg Prod.fst h
    exact absurd h1 (by decide)
  · intro h
    have h1 : ("items" : String) = "object" := congrArg Prod.fst h
    exact absurd h1 (by decide)

/-- C2, amended: bucket selection 3-letter-prefix-matches the
lower-cased declared type against the category names, so `"person"` and
`"persons"` select the person bucket and `"object"`/`"objects"` the
object bucket, but `"people"` and `"items"` match no category; whenever
no category matches, the canonical type is the (lower-cased) raw type
string and the `unknown` bucket is used. -/
theorem c2_amended_bucket_selection (P : Profiles) :
    canonicalBucket P (some "person") = ("person", P.person) ∧
    canonicalBucket P (some "persons") = ("person", P.person) ∧
    canonicalBucket P (some "object") = ("object", P.object) ∧
    canonicalBucket P (some "objects") = ("object", P.object) ∧
    canonicalBucket P (some "people") = ("people", P.unknown) ∧
    canonicalBucket P (some "items") = ("items", P.unknown) ∧
    ∀ t : String, t ≠ "" → strLower t ≠ "" →
      strStartsWith (strLower t) "per" = false →
      strStartsWith (strLower t) "obj" = false →
      strStartsWith (strLower t) "unk" = false →
      canonicalBucket P (some t) = (strLower t, P.unknown) := by
  refine ⟨rfl, rfl, rfl, rfl, rfl, rfl, ?_⟩
  intro t ht htl h1 h2 h3
  have htb : optStrTruthy (some t) = true := decide_eq_true ht
  have htake1 : strTake "person" 3 = "per" := rfl
  have htake2 : strTake "object" 3 = "obj" := rfl
  have htake3 : strTake "unknown" 3 = "unk" := rfl
  unfold canonicalBucket optStrOr
  rw [htb]
  simp only [if_true, Option.getD_some, List.find?_cons, htake1, htake2, htake3,
    h1, h2, h3, List.find?_nil]
  rw [if_neg htl]

theorem c2_amended_bucket_selection_witness :
    canonicalBucket profilesMarked (some "ROBOT") = (strLower "ROBOT", profilesMarked.unknown) :=
  (c2_amended_bucket_selection profilesMarked).2.2.2.2.2.2 "ROBOT"
    (by decide) (by decide) (by decide) (by decide) (by decide)

/-- C3, counterexample: relocation uses `metadata.setdefault`, so an
unrecognised key that collides with a key already present in the
incoming metadata bag loses its value. For the entity input
`{"metadata": {"foo": 1}, "foo": 2}` the pair `("foo", 2)` is popped
from the data but not stored: the output metadata keeps `foo = 1`. -/
theorem c3_counterexample :
    dlookup (asDict (pyGet (normaliseEntityFields
        [("metadata", PyVal.dict [("foo", PyVal.int 1)]), ("foo", PyVal.int 2)])
      "metadata")) "foo" = some (PyVal.int 1) ∧
    dlookup (normaliseEntityFields
        [("metadata", PyVal.dict [("foo", PyVal.int 1)]), ("foo", PyVal.int 2)]) "foo"
      = Option.none ∧
    PyVal.int 1 ≠ PyVal.int 2 := by
  refine ⟨rfl, rfl, ?_⟩
  intro h
  simp only [PyVal.int.injEq] at h
  exact absurd h (by decide)

/-- C3, amended: at every level (per-entity, per-event, top-level) an
input key outside the recognised set is moved into that object's
metadata bag with its value intact, *provided* the incoming metadata bag
does not already bind that key (the relocation is a `setdefault`: on a
collision the pre-existing metadata value wins and the input value is
dropped). -/
theorem c3_amended_metadata_relocation :
    (∀ (values : Dict PyVal) (k : String) (v : PyVal),
      k ∉ entityKnownKeys → dlookup values k = some v →
      dlookup (asDict (pyOr (pyGet values "metadata") (.dict []))) k = Option.none →
      dlookup (asDict (pyGet (normaliseEntityFields values) "metadata")) k = some v) ∧
    (∀ (values : Dict PyVal) (k : String) (v : PyVal),
      k ∉ eventKnownKeys → dlookup values k = some v →
      dlookup (asDict (pyOr (pyGet values "metadata") (.dict []))) k = Option.none →
      dlookup (asDict (pyGet (normaliseEventFields values) "metadata")) k = some v) ∧
    (∀ (values : Dict PyVal) (k : String) (v : PyVal),
      k ∉ payloadKnownKeys → dlookup values k = some v →
      dlookup (asDict (pyOr (pyGet values "metadata") (.dict []))) k = Option.none →
      dlookup (asDict (pyGet (normalisePayloadFields values) "metadata")) k = some v) :=
  ⟨fun _ _ _ hk hval hmd => normaliseEntityFields_metadata_moves hk hval hmd,
   fun _ _ _ hk hval hmd => normaliseEventFields_metadata_moves hk hval hmd,
   fun _ _ _ hk hval hmd => normalisePayloadFields_metadata_moves hk hval hmd⟩

theorem c3_amended_metadata_relocation_witness :
    dlookup (asDict (pyGet (normaliseEntityFields [("custom", PyVal.int 7)]) "metadata"))
      "custom" = some (PyVal.int 7) :=
  c3_amended_metadata_relocation.1 [("custom", PyVal.int 7)] "custom" (PyVal.int 7)
    (by decide) rfl rfl

/-- C5: the attribute-similarity step returns exactly the first profile
in scan order whose score is positive and not exceeded by any other
scanned profile — so equal nonzero scores keep the earliest-seen
profile, and a later profile wins only by a strictly greater score. -/
theorem c5_tie_break_first_best (app attr : Dict PyVal)
    (l : List (String × Dict PyVal)) :
    attributeScan app attr l = firstBestProfile app attr l := by
  unfold attributeScan firstBestProfile
  rw [attributeScan_foldl_eq]
  cases hf : List.find? (fun pp =>
      decide (0 < scoreProfile app attr pp.2) &&
      l.all fun qq =>
        decide (scoreProfile app attr qq.2 ≤ scoreProfile app attr pp.2)) l with
  | none => rfl
  | some pp => rfl

/-- C4: if any event dict of the payload carries a timestamp value (per
the `timestamp`/`time`/`event_time` alias chain) that is in none of the
accepted shapes, the whole `ingest` call fails with a malformed-payload
error and the persisted scene state is returned exactly as it was — no
event is appended and no world-state entry changes. -/
theorem c4_invalid_timestamp_aborts (P : Profiles) (oracle : Nat → String)
    (prior : SceneState) (gf : Dict PyVal) (evs : List PyVal)
    (fields : Dict PyVal) (msg : String)
    (hev : dlookup (normalisePayloadFields gf) "events" = some (.list evs))
    (hmem : PyVal.dict fields ∈ evs)
    (hbad : coerceTimestamp (eventTimestampAlias fields) = .error msg) :
    ∃ e, ingest P oracle (.dict gf) prior = (.error e, prior) := by
  obtain ⟨e, he⟩ := parseGeminiPayload_error_of_bad_timestamp hev hmem hbad
  refine ⟨"Invalid Gemini payload: " ++ e, ?_⟩
  unfold ingest
  rw [he]

theorem c4_invalid_timestamp_aborts_witness :
    ∃ e, ingest emptyProfiles hexOracle
      (.dict [("events", .list [.dict [("timestamp", PyVal.list [PyVal.str "x"])]])])
      priorNonEmpty = (.error e, priorNonEmpty) :=
  c4_invalid_timestamp_aborts emptyProfiles hexOracle priorNonEmpty
    [("events", .list [.dict [("timestamp", PyVal.list [PyVal.str "x"])]])]
    [.dict [("timestamp", PyVal.list [PyVal.str "x"])]]
    [("timestamp", PyVal.list [PyVal.str "x"])] "Unsupported timestamp format"
    rfl (List.mem_singleton.mpr rfl) rfl

/-- C6: every successful `ingest` call returns (and persists) a timeline
sorted ascending by timestamp, whatever the prior state and the input
order of the batch. -/
theorem c6_timeline_sorted (P : Profiles) (oracle : Nat → String) (g : PyVal)
    (prior s : SceneState)
    (h : (ingest P oracle g prior).1 = .ok s) :
    List.Sorted tsLE s.timeline ∧ (ingest P oracle g prior).2 = s := by
  unfold ingest at h ⊢
  cases hp : parseGeminiPayload g with
  | error e =>
    rw [hp] at h
    dsimp only at h
    exact absurd h (by simp)
  | ok payload =>
    rw [hp] at h
    dsimp only at h
    injection h with hbs
    rw [← hbs]
    exact ⟨List.sorted_insertionSort tsLE _, rfl⟩

theorem c6_timeline_sorted_witness :
    List.Sorted tsLE
      ((ingest emptyProfiles hexOracle payloadOutOfOrder SceneState.empty).2).timeline :=
  (c6_timeline_sorted emptyProfiles hexOracle payloadOutOfOrder SceneState.empty
    ((ingest emptyProfiles hexOracle payloadOutOfOrder SceneState.empty).2) rfl).1

/-- C7, counterexample: the claim fails as stated. On an exact id match
the stored profile's own `type` key wins (`setdefault` semantics), so
the returned profile is not the stored profile overlaid with the
canonical type: with a stored profile `{"type": "robot"}` under id `p1`
in the person bucket and an entity declaring `type: "person"`, the
resolver returns type `"robot"`, not the canonical `"person"`. -/
theorem c7_counterexample :
    resolveIdentityC profilesRobot hexOracle 0 entityRobotId ≠
      (("p1", overlayType [("type", PyVal.str "robot")]
        (canonicalBucket profilesRobot entityRobotId.type).1), 0) ∧
    (canonicalBucket profilesRobot entityRobotId.type).1 = "person" := by
  refine ⟨?_, rfl⟩
  intro h
  have h2 : some (PyVal.str "robot") = some (PyVal.str "person") :=
    congrArg (fun r : (String × Dict PyVal) × Nat => dlookup r.1.2 "type") h
  simp only [Option.some.injEq, PyVal.str.injEq] at h2
  exact absurd h2 (by decide)

/-- C7, amended: on an exact id match the resolver returns that id and
the stored profile with the canonical type filled in only when the
profile itself lacks a `type` key (`setdefault`, not an overlay). -/
theorem c7_amended_exact_id_match (P : Profiles) (oracle : Nat → String)
    (ctr : Nat) (entity : GeminiEntity) (eid : String) (prof : Dict PyVal)
    (hid : entity.entity_id = some eid) (hne : eid ≠ "")
    (hbucket : dlookup (canonicalBucket P entity.type).2 eid = some prof) :
    resolveIdentityC P oracle ctr entity =
      ((eid, dsetdefault prof "type" (.str (canonicalBucket P entity.type).1)), ctr) := by
  unfold resolveIdentityC
  rw [hid]
  dsimp only
  rw [if_pos hne, hbucket]

theorem c7_amended_exact_id_match_witness :
    resolveIdentityC profilesRobot hexOracle 0 entityRobotId =
      (("p1", dsetdefault [("type", PyVal.str "robot")] "type"
        (.str (canonicalBucket profilesRobot entityRobotId.type).1)), 0) :=
  c7_amended_exact_id_match profilesRobot hexOracle 0 entityRobotId "p1"
    [("type", PyVal.str "robot")] rfl (by decide) rfl

/-- C8: every appended event's id is unique within the resulting
timeline (assuming the prior timeline's ids were distinct), and two
events both supplying id `e1` in one batch yield two distinct timeline
events, the second carrying the first id extended by `-` and four hex
chars of the random draw. -/
theorem c8_event_id_uniqueness :
    (∀ (P : Profiles) (oracle : Nat → String) (g : PyVal) (prior s : SceneState),
      (prior.timeline.map Event.id).Nodup →
      (ingest P oracle g prior).1 = .ok s →
      (s.timeline.map Event.id).Nodup) ∧
    ((ingest emptyProfiles hexOracle payloadTwiceE1 SceneState.empty).2.timeline.map
      Event.id = ["e1", "e1-0123"]) := by
  constructor
  · intro P oracle g prior s hnd h
    unfold ingest at h
    cases hp : parseGeminiPayload g with
    | error e =>
      rw [hp] at h
      dsimp only at h
      exact absurd h (by simp)
    | ok payload =>
      rw [hp] at h
      dsimp only at h
      injection h with hbs
      rw [← hbs]
      dsimp only
      have hloop := (ingestLoop_ids P oracle payload.metadata
        (List.insertionSort gevTsLE payload.events) 0 prior
        (prior.timeline.map fun e => e.id) 0
        (fun e he => List.mem_map_of_mem _ he) hnd).1
      exact ((List.perm_insertionSort tsLE _).map Event.id).nodup_iff.mpr hloop
  · rfl

theorem c8_event_id_uniqueness_witness :
    (((ingest emptyProfiles hexOracle payloadTwiceE1 SceneState.empty).2).timeline.map
      Event.id).Nodup :=
  c8_event_id_uniqueness.1 emptyProfiles hexOracle payloadTwiceE1 SceneState.empty
    ((ingest emptyProfiles hexOracle payloadTwiceE1 SceneState.empty).2)
    List.nodup_nil rfl

/-- C9: `load_state` never raises — it is a total function of what the
store holds — and for a missing file, unreadable content, invalid JSON,
or a document that fails scene-state validation it returns the empty
scene state (empty timeline, empty world state). -/
theorem c9_load_state_corrupt_empty (f : StoredFile)
    (h : f = StoredFile.missing ∨ f = StoredFile.unreadable ∨
      f = StoredFile.invalidJson ∨
      ∃ v e, f = StoredFile.content v ∧ parseSceneState v = .error e) :
    load_state f = SceneState.empty := by
  rcases h with rfl | rfl | rfl | ⟨v, e, rfl, hpe⟩
  · rfl
  · rfl
  · rfl
  · unfold load_state
    dsimp only
    rw [hpe]

theorem c9_load_state_corrupt_empty_witness :
    load_state (StoredFile.content (PyVal.int 3)) = SceneState.empty :=
  c9_load_state_corrupt_empty (StoredFile.content (PyVal.int 3))
    (Or.inr (Or.inr (Or.inr ⟨PyVal.int 3, "value is not a valid dict", rfl, rfl⟩)))

/-- C10: ingesting `{}` succeeds — the events list defaults to empty —
and the returned (and persisted) state keeps the world state unchanged
while the timeline is the prior timeline re-sorted by timestamp: a
permutation of it, and identical to it when it was already sorted. -/
theorem c10_empty_payload_frame (P : Profiles) (oracle : Nat → String)
    (prior : SceneState) :
    ingest P oracle (.dict []) prior =
      (.ok ⟨List.insertionSort tsLE prior.timeline, prior.world_state⟩,
        ⟨List.insertionSort tsLE prior.timeline, prior.world_state⟩) ∧
    (List.insertionSort tsLE prior.timeline).Perm prior.timeline ∧
    (List.Sorted tsLE prior.timeline →
      ingest P oracle (.dict []) prior = (.ok prior, prior)) := by
  have hmain : ingest P oracle (.dict []) prior =
      (.ok ⟨List.insertionSort tsLE prior.timeline, prior.world_state⟩,
        ⟨List.insertionSort tsLE prior.timeline, prior.world_state⟩) := rfl
  refine ⟨hmain, List.perm_insertionSort tsLE prior.timeline, fun hsorted => ?_⟩
  rw [hmain, hsorted.insertionSort_eq]

theorem c10_empty_payload_frame_witness :
    ingest emptyProfiles hexOracle (.dict []) priorNonEmpty =
      (.ok priorNonEmpty, priorNonEmpty) :=
  (c10_empty_payload_frame emptyProfiles hexOracle priorNonEmpty).2.2
    (List.sorted_singleton _)

end SceneResolver
